import Mathlib

/-!
Verification of the hexagon photo-collage repository.

The development shallowly embeds the canvas compositing/export pipeline
(cover-fit drawing, per-cell destination rectangles with gap adjustment,
the cell store holding uploaded images and pan offsets, the template-33
export walk) and the face-centering auto-cropper
(model-load/detector fallback, stable largest-area selection, detection
prescaling and box rescaling, final render).  JavaScript numbers are
modelled as rationals; JavaScript Math.round is modelled exactly.
-/

namespace Hexagon

/-- JavaScript Math.round: rounds half toward positive infinity. -/
def jsRound (q : ℚ) : ℤ := ⌊q + 1/2⌋

theorem jsRound_intCast (z : ℤ) : jsRound (z : ℚ) = z := by
  unfold jsRound
  rw [Int.floor_int_add]
  norm_num

theorem jsRound_int_add (z : ℤ) (q : ℚ) : jsRound ((z : ℚ) + q) = z + jsRound q := by
  unfold jsRound
  rw [add_assoc, Int.floor_int_add]

theorem jsRound_eq_of_bounds (q : ℚ) (z : ℤ) (h1 : (z : ℚ) ≤ q + 1/2)
    (h2 : q + 1/2 < z + 1) : jsRound q = z := by
  unfold jsRound
  exact Int.floor_eq_iff.mpr ⟨h1, h2⟩

theorem jsRound_half_nat (g : ℕ) : jsRound ((g : ℚ)/2) = ((g + 1)/2 : ℕ) := by
  rcases Nat.even_or_odd g with ⟨m, hm⟩ | ⟨m, hm⟩
  · subst hm
    apply jsRound_eq_of_bounds
    · have : ((m + m + 1)/2 : ℕ) = m := by omega
      rw [this]; push_cast; linarith
    · have : ((m + m + 1)/2 : ℕ) = m := by omega
      rw [this]; push_cast; linarith
  · subst hm
    apply jsRound_eq_of_bounds
    · have : ((2*m + 1 + 1)/2 : ℕ) = m + 1 := by omega
      rw [this]; push_cast; linarith
    · have : ((2*m + 1 + 1)/2 : ℕ) = m + 1 := by omega
      rw [this]; push_cast; linarith

theorem jsRound_neg_half_nat (g : ℕ) : jsRound (-((g : ℚ)/2)) = -((g/2 : ℕ) : ℤ) := by
  rcases Nat.even_or_odd g with ⟨m, hm⟩ | ⟨m, hm⟩
  · subst hm
    apply jsRound_eq_of_bounds
    · have : ((m + m)/2 : ℕ) = m := by omega
      rw [this]; push_cast; linarith
    · have : ((m + m)/2 : ℕ) = m := by omega
      rw [this]; push_cast; linarith
  · subst hm
    apply jsRound_eq_of_bounds
    · have : ((2*m + 1)/2 : ℕ) = m := by omega
      rw [this]; push_cast; linarith
    · have : ((2*m + 1)/2 : ℕ) = m := by omega
      rw [this]; push_cast; linarith

theorem jsRound_le_of_le_int (q : ℚ) (z : ℤ) (h : q ≤ z) : jsRound q ≤ z := by
  unfold jsRound
  have h1 : q + 1/2 < (z : ℚ) + 1 := by linarith
  have h2 : ((z : ℚ) + 1) = ((z + 1 : ℤ) : ℚ) := by push_cast; ring
  have h3 : ⌊q + 1/2⌋ ≤ ⌊((z + 1 : ℤ) : ℚ)⌋ := Int.floor_le_floor (by rw [← h2]; linarith)
  rw [Int.floor_intCast] at h3
  have h4 : ⌊q + 1/2⌋ ≠ z + 1 := by
    intro heq
    have := Int.floor_le (q + 1/2)
    rw [heq] at this
    rw [h2] at h1
    exact absurd (lt_of_le_of_lt this h1) (lt_irrefl _)
  omega

/-! ### Cover-fit drawer

Shallow embedding of drawImageCover (src/src/components/33.tsx lines
147-168, duplicated verbatim in 75.tsx): given the source image natural
dimensions and the destination rectangle dimensions, compute the source
sub-rectangle (sx, sy, sw, sh) that is drawn to fill the destination. -/

structure CoverRect where
  sx : ℚ
  sy : ℚ
  sw : ℚ
  sh : ℚ
  deriving Repr, DecidableEq

def drawImageCover (iw ih dw dh : ℚ) : CoverRect :=
  let sRat := iw / ih
  let dRat := dw / dh
  if sRat > dRat then
    let sh := ih
    let sw := sh * dRat
    let sx := (iw - sw) / 2
    { sx := sx, sy := 0, sw := sw, sh := sh }
  else
    let sw := iw
    let sh := sw / dRat
    let sy := (ih - sh) / 2
    { sx := 0, sy := sy, sw := sw, sh := sh }

end Hexagon

namespace Hexagon

/-- Claim C1: for positive source dimensions (iw, ih) and positive
destination dimensions (dw, dh), the cover-fit drawer picks a source
sub-rectangle whose aspect ratio sw/sh equals the destination ratio
dw/dh, and the crop is the symmetric one: when sRatio > dRatio it uses
sh = ih, sw = sh*dRatio, sx = (iw-sw)/2, sy = 0, and otherwise sw = iw,
sh = sw/dRatio, sy = (ih-sh)/2, sx = 0. -/
theorem claim_C1 (iw ih dw dh : ℚ) (hiw : 0 < iw) (hih : 0 < ih)
    (hdw : 0 < dw) (hdh : 0 < dh) :
    (drawImageCover iw ih dw dh).sw / (drawImageCover iw ih dw dh).sh = dw / dh ∧
    (iw / ih > dw / dh →
      (drawImageCover iw ih dw dh).sh = ih ∧
      (drawImageCover iw ih dw dh).sw = ih * (dw / dh) ∧
      (drawImageCover iw ih dw dh).sx = (iw - ih * (dw / dh)) / 2 ∧
      (drawImageCover iw ih dw dh).sy = 0) ∧
    (¬ iw / ih > dw / dh →
      (drawImageCover iw ih dw dh).sw = iw ∧
      (drawImageCover iw ih dw dh).sh = iw / (dw / dh) ∧
      (drawImageCover iw ih dw dh).sy = (ih - iw / (dw / dh)) / 2 ∧
      (drawImageCover iw ih dw dh).sx = 0) := by
  have hdr : 0 < dw / dh := div_pos hdw hdh
  by_cases h : iw / ih > dw / dh
  · have he : drawImageCover iw ih dw dh =
        { sx := (iw - ih * (dw / dh)) / 2, sy := 0, sw := ih * (dw / dh), sh := ih } := by
      unfold drawImageCover
      rw [if_pos h]
    rw [he]
    refine ⟨?_, fun _ => ⟨rfl, rfl, rfl, rfl⟩, fun hc => absurd h hc⟩
    show ih * (dw / dh) / ih = dw / dh
    rw [mul_comm, mul_div_assoc, div_self (ne_of_gt hih), mul_one]
  · have he : drawImageCover iw ih dw dh =
        { sx := 0, sy := (ih - iw / (dw / dh)) / 2, sw := iw, sh := iw / (dw / dh) } := by
      unfold drawImageCover
      rw [if_neg h]
    rw [he]
    refine ⟨?_, fun hc => absurd hc h, fun _ => ⟨rfl, rfl, rfl, rfl⟩⟩
    show iw / (iw / (dw / dh)) = dw / dh
    rw [div_div_eq_mul_div, mul_comm, mul_div_assoc, div_self (ne_of_gt hiw), mul_one]

/-- Witness for C1 at a concrete wide source image (200 by 100) and a
square destination (100 by 100): the crop keeps the full height and
takes the centered 100-wide strip. -/
theorem claim_C1_witness :
    (drawImageCover 200 100 100 100).sw / (drawImageCover 200 100 100 100).sh
        = (100 : ℚ) / 100 ∧
    (drawImageCover 200 100 100 100).sx = 50 := by
  have h := claim_C1 200 100 100 100 (by norm_num) (by norm_num) (by norm_num) (by norm_num)
  refine ⟨h.1, ?_⟩
  have h2 := h.2.1 (by norm_num)
  rw [h2.2.2.1]
  norm_num

/-! ### Grid compositor destination rectangles

Shallow embedding of drawKey (src/src/components/33.tsx lines 186-199 and
src/src/components/75.tsx lines 197-211, identical formulas): a placement at
grid position (r, c) spanning rs rows and cs columns gets a destination
rectangle whose per-side gap is 0 on sides touching the grid boundary and
gap/2 on interior-facing sides, with every coordinate rounded independently
by Math.round. -/

structure DRect where
  dx : ℤ
  dy : ℤ
  dw : ℤ
  dh : ℤ
  deriving Repr, DecidableEq

def destRect (cols rows : ℕ) (base gap : ℚ) (r c rs cs : ℕ) : DRect :=
  let leftGap : ℚ := if c = 0 then 0 else gap / 2
  let rightGap : ℚ := if c + cs = cols then 0 else gap / 2
  let topGap : ℚ := if r = 0 then 0 else gap / 2
  let bottomGap : ℚ := if r + rs = rows then 0 else gap / 2
  { dx := jsRound (c * base + leftGap)
    dy := jsRound (r * base + topGap)
    dw := jsRound (cs * base - (leftGap + rightGap))
    dh := jsRound (rs * base - (topGap + bottomGap)) }

/-- Placement validity on the logical grid (spans at least one cell and
stays inside the grid), the Layout Descriptor invariant. -/
def validPlacement (cols rows r c rs cs : ℕ) : Prop :=
  1 ≤ rs ∧ 1 ≤ cs ∧ c + cs ≤ cols ∧ r + rs ≤ rows

/-- Footprint disjointness of two placements on the logical grid. -/
def gridDisjoint (r1 c1 rs1 cs1 r2 c2 rs2 cs2 : ℕ) : Prop :=
  c1 + cs1 ≤ c2 ∨ c2 + cs2 ≤ c1 ∨ r1 + rs1 ≤ r2 ∨ r2 + rs2 ≤ r1

/-- Integer pixel (x, y) lies in the half-open destination rectangle. -/
def inRect (rect : DRect) (x y : ℤ) : Prop :=
  rect.dx ≤ x ∧ x < rect.dx + rect.dw ∧ rect.dy ≤ y ∧ y < rect.dy + rect.dh

/-! One-dimensional view of the rectangle computation: the x components
(dx, dw) of destRect are sideStart/sideLen at the column axis and the
y components at the row axis. -/

def sideStart (base gap : ℚ) (c : ℕ) : ℤ :=
  jsRound (c * base + (if c = 0 then 0 else gap / 2))

def sideLen (n : ℕ) (base gap : ℚ) (c cs : ℕ) : ℤ :=
  jsRound (cs * base - ((if c = 0 then 0 else gap / 2) + (if c + cs = n then 0 else gap / 2)))

theorem destRect_dx (cols rows : ℕ) (base gap : ℚ) (r c rs cs : ℕ) :
    (destRect cols rows base gap r c rs cs).dx = sideStart base gap c := rfl

theorem destRect_dy (cols rows : ℕ) (base gap : ℚ) (r c rs cs : ℕ) :
    (destRect cols rows base gap r c rs cs).dy = sideStart base gap r := rfl

theorem destRect_dw (cols rows : ℕ) (base gap : ℚ) (r c rs cs : ℕ) :
    (destRect cols rows base gap r c rs cs).dw = sideLen cols base gap c cs := rfl

theorem destRect_dh (cols rows : ℕ) (base gap : ℚ) (r c rs cs : ℕ) :
    (destRect cols rows base gap r c rs cs).dh = sideLen rows base gap r rs := rfl

/-- Rounded-up half of the gap, the amount the rounded start coordinate of
an interior-facing left edge moves past the logical cell boundary. -/
def halfUp (g : ℕ) : ℤ := (((g + 1)/2 : ℕ) : ℤ)

/-- Rounded-down half of the gap, the amount the rounded end coordinate of
an interior-facing right edge stays short of the logical cell boundary. -/
def halfDown (g : ℕ) : ℤ := ((g/2 : ℕ) : ℤ)

theorem sideStart_eq (b g c : ℕ) :
    sideStart (b : ℚ) (g : ℚ) c
      = ((c * b : ℕ) : ℤ) + (if c = 0 then 0 else halfUp g) := by
  unfold sideStart
  by_cases hc : c = 0
  · subst hc
    rw [if_pos rfl, if_pos rfl]
    have h : ((0 : ℕ) : ℚ) * b + 0 = (((0 * b : ℕ) : ℤ) : ℚ) := by push_cast; ring
    rw [h, jsRound_intCast, add_zero]
  · rw [if_neg hc, if_neg hc]
    have h : ((c : ℚ)) * b + (g : ℚ)/2 = (((c * b : ℕ) : ℤ) : ℚ) + (g : ℚ)/2 := by
      push_cast; ring
    rw [h, jsRound_int_add, jsRound_half_nat]
    rfl

theorem sideEnd_eq (n b g c cs : ℕ) :
    sideStart (b : ℚ) (g : ℚ) c + sideLen n (b : ℚ) (g : ℚ) c cs
      = (((c + cs) * b : ℕ) : ℤ)
        + (if c + cs = n then (if c = 0 then 0 else ((g % 2 : ℕ) : ℤ)) else -(halfDown g)) := by
  rw [sideStart_eq]
  unfold sideLen
  by_cases hc : c = 0 <;> by_cases hn : c + cs = n
  · subst hc
    rw [if_pos rfl, if_pos rfl, if_pos hn, if_pos hn, if_pos rfl]
    have h : (cs : ℚ) * b - (0 + 0) = (((cs * b : ℕ) : ℤ) : ℚ) := by push_cast; ring
    rw [h, jsRound_intCast]
    simp
  · subst hc
    rw [if_pos rfl, if_pos rfl, if_neg hn, if_neg hn]
    have h : (cs : ℚ) * b - (0 + (g : ℚ)/2)
        = (((cs * b : ℕ) : ℤ) : ℚ) + (-((g : ℚ)/2)) := by push_cast; ring
    rw [h, jsRound_int_add, jsRound_neg_half_nat]
    unfold halfDown
    simp
  · rw [if_neg hc, if_neg hc, if_pos hn, if_pos hn, if_neg hc]
    have h : (cs : ℚ) * b - ((g : ℚ)/2 + 0)
        = (((cs * b : ℕ) : ℤ) : ℚ) + (-((g : ℚ)/2)) := by push_cast; ring
    rw [h, jsRound_int_add, jsRound_neg_half_nat]
    rw [Nat.add_mul, Nat.cast_add]
    generalize (c * b : ℕ) = X
    generalize (cs * b : ℕ) = Y
    simp only [halfUp, halfDown]
    omega
  · rw [if_neg hc, if_neg hc, if_neg hn, if_neg hn]
    have h : (cs : ℚ) * b - ((g : ℚ)/2 + (g : ℚ)/2)
        = (Int.cast (((cs * b : ℕ) : ℤ) - ((g : ℕ) : ℤ)) : ℚ) := by push_cast; ring
    rw [h, jsRound_intCast]
    rw [Nat.add_mul, Nat.cast_add]
    generalize (c * b : ℕ) = X
    generalize (cs * b : ℕ) = Y
    simp only [halfUp, halfDown]
    omega

/-- Along one axis, a placement that ends at or before where a second valid
placement starts gets a rounded extent that ends at or before the second
one's rounded start: no pixel overlap in that axis. -/
theorem side_sep (n b g c1 cs1 c2 cs2 : ℕ) (h2 : c2 + cs2 ≤ n) (hcs2 : 1 ≤ cs2)
    (hle : c1 + cs1 ≤ c2) :
    sideStart (b : ℚ) (g : ℚ) c1 + sideLen n (b : ℚ) (g : ℚ) c1 cs1
      ≤ sideStart (b : ℚ) (g : ℚ) c2 := by
  rw [sideEnd_eq, sideStart_eq]
  have hne : c1 + cs1 ≠ n := by omega
  rw [if_neg hne]
  have hmul : ((c1 + cs1) * b : ℕ) ≤ (c2 * b : ℕ) := Nat.mul_le_mul_right b hle
  have hmul2 : (((c1 + cs1) * b : ℕ) : ℤ) ≤ ((c2 * b : ℕ) : ℤ) := by exact_mod_cast hmul
  have hd : (0 : ℤ) ≤ halfDown g := by unfold halfDown; positivity
  have hu : (0 : ℤ) ≤ halfUp g := by unfold halfUp; positivity
  by_cases hz : c2 = 0
  · rw [if_pos hz]; omega
  · rw [if_neg hz]; omega

/-- Along one axis, two valid placements that are exactly adjacent on the
grid have their rounded nearest edges exactly g pixels apart. -/
theorem side_gap (n b g c1 cs1 c2 cs2 : ℕ) (hcs1 : 1 ≤ cs1) (h2 : c2 + cs2 ≤ n)
    (hcs2 : 1 ≤ cs2) (hadj : c1 + cs1 = c2) :
    sideStart (b : ℚ) (g : ℚ) c2
      - (sideStart (b : ℚ) (g : ℚ) c1 + sideLen n (b : ℚ) (g : ℚ) c1 cs1) = g := by
  rw [sideEnd_eq, sideStart_eq]
  have hne : c1 + cs1 ≠ n := by omega
  have hz : c2 ≠ 0 := by omega
  rw [if_neg hne, if_neg hz, hadj]
  generalize (c2 * b : ℕ) = X
  unfold halfUp halfDown
  omega

/-- Claim C2 (amended — the claim as stated fails for non-integer gap or
base, see the counterexample): for every valid Layout Descriptor whose
cellBasePx and gapPx are integers with gapPx >= 0, the gap-adjusted,
independently rounded destination rectangles of any two placements that
are disjoint on the logical grid share no pixel, and two placements
adjacent on the grid have their nearest edges exactly gapPx apart. -/
theorem claim_C2_amended (cols rows b g : ℕ) (r1 c1 rs1 cs1 r2 c2 rs2 cs2 : ℕ)
    (h1 : validPlacement cols rows r1 c1 rs1 cs1)
    (h2 : validPlacement cols rows r2 c2 rs2 cs2) :
    (gridDisjoint r1 c1 rs1 cs1 r2 c2 rs2 cs2 →
      ∀ x y : ℤ, ¬(inRect (destRect cols rows (b : ℚ) (g : ℚ) r1 c1 rs1 cs1) x y
                  ∧ inRect (destRect cols rows (b : ℚ) (g : ℚ) r2 c2 rs2 cs2) x y)) ∧
    (c1 + cs1 = c2 →
      (destRect cols rows (b : ℚ) (g : ℚ) r2 c2 rs2 cs2).dx
        - ((destRect cols rows (b : ℚ) (g : ℚ) r1 c1 rs1 cs1).dx
           + (destRect cols rows (b : ℚ) (g : ℚ) r1 c1 rs1 cs1).dw) = g) ∧
    (r1 + rs1 = r2 →
      (destRect cols rows (b : ℚ) (g : ℚ) r2 c2 rs2 cs2).dy
        - ((destRect cols rows (b : ℚ) (g : ℚ) r1 c1 rs1 cs1).dy
           + (destRect cols rows (b : ℚ) (g : ℚ) r1 c1 rs1 cs1).dh) = g) := by
  obtain ⟨hrs1, hcs1, hcc1, hrr1⟩ := h1
  obtain ⟨hrs2, hcs2, hcc2, hrr2⟩ := h2
  refine ⟨?_, ?_, ?_⟩
  · intro hgd x y hmem
    obtain ⟨m1, m2⟩ := hmem
    simp only [inRect, destRect_dx, destRect_dy, destRect_dw, destRect_dh] at m1 m2
    rcases hgd with h | h | h | h
    · have hs := side_sep cols b g c1 cs1 c2 cs2 hcc2 hcs2 h
      omega
    · have hs := side_sep cols b g c2 cs2 c1 cs1 hcc1 hcs1 h
      omega
    · have hs := side_sep rows b g r1 rs1 r2 rs2 hrr2 hrs2 h
      omega
    · have hs := side_sep rows b g r2 rs2 r1 rs1 hrr1 hrs1 h
      omega
  · intro hadj
    simp only [destRect_dx, destRect_dw]
    have := side_gap cols b g c1 cs1 c2 cs2 hcs1 hcc2 hcs2 hadj
    omega
  · intro hadj
    simp only [destRect_dy, destRect_dh]
    have := side_gap rows b g r1 rs1 r2 rs2 hrs1 hrr2 hrs2 hadj
    omega

/-- Witness for the amended C2 on a concrete 3 by 1 grid with base 100 and
gap 2: the two leftmost cells are pixel-disjoint at the origin and their
nearest edges are exactly 2 pixels apart. -/
theorem claim_C2_amended_witness :
    ((destRect 3 1 (100 : ℚ) (2 : ℚ) 0 1 1 1).dx
      - ((destRect 3 1 (100 : ℚ) (2 : ℚ) 0 0 1 1).dx
         + (destRect 3 1 (100 : ℚ) (2 : ℚ) 0 0 1 1).dw) = 2) ∧
    ¬(inRect (destRect 3 1 (100 : ℚ) (2 : ℚ) 0 0 1 1) 150 0
      ∧ inRect (destRect 3 1 (100 : ℚ) (2 : ℚ) 0 1 1 1) 150 0) := by
  have h := claim_C2_amended 3 1 100 2 0 0 1 1 0 1 1 1
    ⟨le_refl 1, le_refl 1, by norm_num, le_refl 1⟩
    ⟨le_refl 1, le_refl 1, by norm_num, le_refl 1⟩
  exact ⟨h.2.1 rfl, h.1 (Or.inl (by norm_num)) 150 0⟩

/-- Counterexample to C2 as stated: with the fractional gap 1/2 (which the
code produces, e.g. desiredGapPx/scale = 1/2 at devicePixelRatio 2 in
75.tsx) and base 100 on a 3 by 1 grid, the two adjacent cells at columns 1
and 2 have rounded nearest edges 0 pixels apart, not gapPx = 1/2. -/
theorem claim_C2_counterexample :
    ¬((((destRect 3 1 (100 : ℚ) (1/2 : ℚ) 0 2 1 1).dx
        - ((destRect 3 1 (100 : ℚ) (1/2 : ℚ) 0 1 1 1).dx
           + (destRect 3 1 (100 : ℚ) (1/2 : ℚ) 0 1 1 1).dw) : ℤ) : ℚ) = 1/2) := by
  have e1 : (destRect 3 1 (100 : ℚ) (1/2 : ℚ) 0 1 1 1).dx = 100 := by
    rw [destRect_dx]
    unfold sideStart
    apply jsRound_eq_of_bounds <;> norm_num
  have e2 : (destRect 3 1 (100 : ℚ) (1/2 : ℚ) 0 1 1 1).dw = 100 := by
    rw [destRect_dw]
    unfold sideLen
    apply jsRound_eq_of_bounds <;> norm_num
  have e3 : (destRect 3 1 (100 : ℚ) (1/2 : ℚ) 0 2 1 1).dx = 200 := by
    rw [destRect_dx]
    unfold sideStart
    apply jsRound_eq_of_bounds <;> norm_num
  rw [e1, e2, e3]
  norm_num

/-- Claim C3 (amended — the right/bottom edge part of the claim as stated
fails for odd gapPx, see the counterexample): for every valid placement the
per-side gap contribution is gapPx/2 on interior-facing sides and 0 on
sides touching the grid boundary; a placement touching the left or top
boundary has its rounded left or top edge exactly on the canvas edge; when
gapPx is even, a placement touching the right or bottom boundary also has
its rounded right or bottom edge exactly on the canvas edge; and on a
3 by 3 grid with gapPx = 4 and cellBasePx = 100, cell (0,0) gets the
destination rectangle (0, 0, 98, 98). -/
theorem claim_C3_amended (cols rows b g : ℕ) (r c rs cs : ℕ)
    (h : validPlacement cols rows r c rs cs) :
    (destRect cols rows (b : ℚ) (g : ℚ) r c rs cs
      = { dx := jsRound (c * (b : ℚ) + (if c = 0 then 0 else (g : ℚ)/2))
          dy := jsRound (r * (b : ℚ) + (if r = 0 then 0 else (g : ℚ)/2))
          dw := jsRound (cs * (b : ℚ) - ((if c = 0 then 0 else (g : ℚ)/2)
                  + (if c + cs = cols then 0 else (g : ℚ)/2)))
          dh := jsRound (rs * (b : ℚ) - ((if r = 0 then 0 else (g : ℚ)/2)
                  + (if r + rs = rows then 0 else (g : ℚ)/2))) }) ∧
    (c = 0 → (destRect cols rows (b : ℚ) (g : ℚ) r c rs cs).dx = 0) ∧
    (r = 0 → (destRect cols rows (b : ℚ) (g : ℚ) r c rs cs).dy = 0) ∧
    (g % 2 = 0 →
      (c + cs = cols →
        (destRect cols rows (b : ℚ) (g : ℚ) r c rs cs).dx
          + (destRect cols rows (b : ℚ) (g : ℚ) r c rs cs).dw = ((cols * b : ℕ) : ℤ)) ∧
      (r + rs = rows →
        (destRect cols rows (b : ℚ) (g : ℚ) r c rs cs).dy
          + (destRect cols rows (b : ℚ) (g : ℚ) r c rs cs).dh = ((rows * b : ℕ) : ℤ))) ∧
    destRect 3 3 (100 : ℚ) (4 : ℚ) 0 0 1 1 = ⟨0, 0, 98, 98⟩ := by
  have hcell : destRect 3 3 (100 : ℚ) (4 : ℚ) 0 0 1 1 = ⟨0, 0, 98, 98⟩ := by
    have e1 : (destRect 3 3 (100 : ℚ) (4 : ℚ) 0 0 1 1).dx = 0 := by
      rw [destRect_dx]; unfold sideStart
      apply jsRound_eq_of_bounds <;> norm_num
    have e2 : (destRect 3 3 (100 : ℚ) (4 : ℚ) 0 0 1 1).dy = 0 := by
      rw [destRect_dy]; unfold sideStart
      apply jsRound_eq_of_bounds <;> norm_num
    have e3 : (destRect 3 3 (100 : ℚ) (4 : ℚ) 0 0 1 1).dw = 98 := by
      rw [destRect_dw]; unfold sideLen
      apply jsRound_eq_of_bounds <;> norm_num
    have e4 : (destRect 3 3 (100 : ℚ) (4 : ℚ) 0 0 1 1).dh = 98 := by
      rw [destRect_dh]; unfold sideLen
      apply jsRound_eq_of_bounds <;> norm_num
    calc destRect 3 3 (100 : ℚ) (4 : ℚ) 0 0 1 1
        = ⟨(destRect 3 3 (100 : ℚ) (4 : ℚ) 0 0 1 1).dx,
           (destRect 3 3 (100 : ℚ) (4 : ℚ) 0 0 1 1).dy,
           (destRect 3 3 (100 : ℚ) (4 : ℚ) 0 0 1 1).dw,
           (destRect 3 3 (100 : ℚ) (4 : ℚ) 0 0 1 1).dh⟩ := rfl
      _ = ⟨0, 0, 98, 98⟩ := by rw [e1, e2, e3, e4]
  refine ⟨rfl, ?_, ?_, ?_, hcell⟩
  · intro hc
    subst hc
    rw [destRect_dx, sideStart_eq, if_pos rfl]
    simp
  · intro hr
    subst hr
    rw [destRect_dy, sideStart_eq, if_pos rfl]
    simp
  · intro hg
    constructor
    · intro hn
      rw [destRect_dx, destRect_dw, sideEnd_eq, if_pos hn, hn]
      by_cases hc : c = 0
      · rw [if_pos hc]; omega
      · rw [if_neg hc, hg]; simp
    · intro hn
      rw [destRect_dy, destRect_dh, sideEnd_eq, if_pos hn, hn]
      by_cases hr : r = 0
      · rw [if_pos hr]; omega
      · rw [if_neg hr, hg]; simp

/-- Witness for the amended C3 on template 33 geometry (8 by 10 grid,
base 100): the top-left cell starts exactly at the canvas origin, and with
the even gap 2 the bottom-right cell ends exactly at the canvas corner. -/
theorem claim_C3_amended_witness :
    (destRect 8 10 (100 : ℚ) (2 : ℚ) 0 0 1 1).dx = 0 ∧
    (destRect 8 10 (100 : ℚ) (2 : ℚ) 9 7 1 1).dx
      + (destRect 8 10 (100 : ℚ) (2 : ℚ) 9 7 1 1).dw = ((8 * 100 : ℕ) : ℤ) := by
  have ha := claim_C3_amended 8 10 100 2 0 0 1 1 ⟨le_refl 1, le_refl 1, by norm_num, by norm_num⟩
  have hb := claim_C3_amended 8 10 100 2 9 7 1 1 ⟨le_refl 1, le_refl 1, by norm_num, by norm_num⟩
  exact ⟨ha.2.1 rfl, (hb.2.2.2.1 rfl).1 rfl⟩

/-- Counterexample to C3 as stated: in template 33 itself (8 columns,
base 100, gap 1) the cell at row 0, column 7 touches the right grid
boundary, yet its rounded right edge lands at 801, one pixel past the
canvas edge 8*100 = 800, because dx rounds 700.5 up to 701 while dw
rounds 99.5 up to 100. -/
theorem claim_C3_counterexample :
    (destRect 8 10 (100 : ℚ) (1 : ℚ) 0 7 1 1).dx
      + (destRect 8 10 (100 : ℚ) (1 : ℚ) 0 7 1 1).dw ≠ (800 : ℤ) := by
  have e1 : (destRect 8 10 (100 : ℚ) (1 : ℚ) 0 7 1 1).dx = 701 := by
    rw [destRect_dx]; unfold sideStart
    apply jsRound_eq_of_bounds <;> norm_num
  have e2 : (destRect 8 10 (100 : ℚ) (1 : ℚ) 0 7 1 1).dw = 100 := by
    rw [destRect_dw]; unfold sideLen
    apply jsRound_eq_of_bounds <;> norm_num
  rw [e1, e2]
  norm_num

/-! ### Cell store

Shallow embedding of the per-template React state of
src/src/components/33.tsx: cellImages (data URL per cell key) and
cellOffsets (pan offset per cell key). -/

structure CellState where
  images : String → Option String
  offsets : String → Option (ℚ × ℚ)

def initialState : CellState := ⟨fun _ => none, fun _ => none⟩

/-- Keyed update, mirroring the object-spread pattern
prev mapped to a copy with [key] set to v. -/
def setEntry {α : Type} (f : String → Option α) (key : String) (v : α) :
    String → Option α :=
  fun q => if q = key then some v else f q

/-- Shallow embedding of handleImageUpload (33.tsx lines 28-51).
fileIsImage models the guard file.type.startsWith with the prefix
image/ ; a non-image file is rejected with no state change, otherwise the
data URL is stored under the selected key, replacing any prior value.
The offsets map is not touched on either path. -/
def handleImageUpload (s : CellState) (selectedCell : String)
    (fileIsImage : Bool) (dataUrl : String) : CellState :=
  if fileIsImage then
    { s with images := setEntry s.images selectedCell dataUrl }
  else s

/-- Clamp of one pan coordinate, mirroring Math.max of 0 and Math.min of
100 and the value (33.tsx lines 92-93). -/
def clampPct (v : ℚ) : ℚ := max 0 (min 100 v)

/-- Shallow embedding of the drag path that stores a pan offset
(startDrag and its move handler, 33.tsx lines 67-106): startDrag returns
immediately when the key has no image, and the offset committed by the
move handler is clamped to the interval from 0 to 100 on both axes. -/
def setOffset (s : CellState) (key : String) (x y : ℚ) : CellState :=
  if s.images key = none then s
  else { s with offsets := setEntry s.offsets key (clampPct x, clampPct y) }

/-- Store operations a session can perform, in the order performed. -/
inductive StoreOp where
  | upload (key : String) (fileIsImage : Bool) (dataUrl : String)
  | drag (key : String) (x y : ℚ)

def applyOp (s : CellState) : StoreOp → CellState
  | .upload k t d => handleImageUpload s k t d
  | .drag k x y => setOffset s k x y

def runStore (ops : List StoreOp) : CellState := ops.foldl applyOp initialState

/-- Offsets-in-range invariant of a cell state. -/
def offsetsInRange (s : CellState) : Prop :=
  ∀ key x y, s.offsets key = some (x, y) → 0 ≤ x ∧ x ≤ 100 ∧ 0 ≤ y ∧ y ≤ 100

theorem clampPct_nonneg (v : ℚ) : 0 ≤ clampPct v := le_max_left 0 _

theorem clampPct_le (v : ℚ) : clampPct v ≤ 100 :=
  max_le (by norm_num) (min_le_left 100 v)

theorem offsetsInRange_applyOp (s : CellState) (op : StoreOp)
    (h : offsetsInRange s) : offsetsInRange (applyOp s op) := by
  cases op with
  | upload k t d =>
    intro key x y hk
    simp only [applyOp, handleImageUpload] at hk
    split_ifs at hk
    · exact h key x y hk
    · exact h key x y hk
  | drag k x y =>
    intro key u v hk
    simp only [applyOp, setOffset] at hk
    split_ifs at hk
    · exact h key u v hk
    · simp only [setEntry] at hk
      by_cases hkey : key = k
      · rw [if_pos hkey] at hk
        simp only [Option.some.injEq, Prod.mk.injEq] at hk
        obtain ⟨hu, hv⟩ := hk
        subst hu
        subst hv
        exact ⟨clampPct_nonneg x, clampPct_le x, clampPct_nonneg y, clampPct_le y⟩
      · rw [if_neg hkey] at hk
        exact h key u v hk

theorem offsetsInRange_runStore (ops : List StoreOp) : offsetsInRange (runStore ops) := by
  have haux : ∀ (l : List StoreOp) (s : CellState),
      offsetsInRange s → offsetsInRange (l.foldl applyOp s) := by
    intro l
    induction l with
    | nil => intro s hs; exact hs
    | cons op rest ih => intro s hs; exact ih _ (offsetsInRange_applyOp s op hs)
  refine haux ops initialState ?_
  intro key x y hk
  simp [initialState] at hk

theorem setOffset_images (s : CellState) (key : String) (x y : ℚ) :
    (setOffset s key x y).images = s.images := by
  unfold setOffset
  split_ifs <;> rfl

/-- Claim C5: setting a pan offset is a no-op when the key has no image;
otherwise the stored offset is the componentwise clamp to [0,100]; the
attempted offset (150, -20) is stored as (100, 0); and every offset a
session ever stores lies in [0,100] on both axes. -/
theorem claim_C5 :
    (∀ (s : CellState) (key : String) (x y : ℚ),
      s.images key = none → setOffset s key x y = s) ∧
    (∀ (s : CellState) (key : String) (x y : ℚ), s.images key ≠ none →
      (setOffset s key x y).offsets key = some (clampPct x, clampPct y) ∧
      0 ≤ clampPct x ∧ clampPct x ≤ 100 ∧ 0 ≤ clampPct y ∧ clampPct y ≤ 100) ∧
    (∀ (s : CellState) (key : String), s.images key ≠ none →
      (setOffset s key 150 (-20)).offsets key = some (100, 0)) ∧
    (∀ (ops : List StoreOp) (key : String) (x y : ℚ),
      (runStore ops).offsets key = some (x, y) →
      0 ≤ x ∧ x ≤ 100 ∧ 0 ≤ y ∧ y ≤ 100) := by
  refine ⟨?_, ?_, ?_, ?_⟩
  · intro s key x y h
    unfold setOffset
    rw [if_pos h]
  · intro s key x y h
    unfold setOffset
    rw [if_neg h]
    refine ⟨?_, clampPct_nonneg x, clampPct_le x, clampPct_nonneg y, clampPct_le y⟩
    simp [setEntry]
  · intro s key h
    unfold setOffset
    rw [if_neg h]
    have h1 : clampPct 150 = 100 := by unfold clampPct; norm_num
    have h2 : clampPct (-20) = 0 := by unfold clampPct; norm_num
    simp [setEntry, h1, h2]
  · intro ops key x y h
    exact offsetsInRange_runStore ops key x y h

/-- Witness for C5: after uploading an image to key a, dragging to the
attempted offset (150, -20) stores exactly (100, 0); and on key b, which
has no image, the same drag is a no-op on the whole state. -/
theorem claim_C5_witness :
    (setOffset (handleImageUpload initialState "a" true "img") "a" 150 (-20)).offsets "a"
      = some (100, 0) ∧
    setOffset initialState "b" 150 (-20) = initialState := by
  constructor
  · apply claim_C5.2.2.1
    simp [handleImageUpload, setEntry, initialState]
  · exact claim_C5.1 initialState "b" 150 (-20) rfl

/-- Claim C6: uploading an image replaces any prior image stored under the
same key (after two uploads to one key only the second data URL remains),
and an upload never modifies the offsets map, on the accepting path and on
the rejecting path alike. -/
theorem claim_C6 (s : CellState) (key d1 d2 : String) :
    (handleImageUpload (handleImageUpload s key true d1) key true d2).images key
      = some d2 ∧
    (∀ (s2 : CellState) (key2 : String) (t : Bool) (d : String),
      (handleImageUpload s2 key2 t d).offsets = s2.offsets) := by
  constructor
  · simp [handleImageUpload, setEntry]
  · intro s2 key2 t d
    unfold handleImageUpload
    split_ifs <;> rfl

/-! ### Template 33 export walk

Shallow embedding of renderGridToCanvas of src/src/components/33.tsx: an
8 by 10 grid at base 100 with gap 1; the draw sequence visits the top row,
then the middle rows (left border cell, the 8 by 6 center cell once, right
border cell), then the bottom row, and for each key with an image draws it
cover-fitted into its gap-adjusted destination rectangle.  drawKey reads
only cellImages; cellOffsets never enters the computation, which is the
content of claim C4. -/

def cid33 (sec : String) (r c : ℕ) : String :=
  "grid-33:" ++ sec ++ ":" ++ toString r ++ "-" ++ toString c

structure Placement33 where
  key : String
  r : ℕ
  c : ℕ
  rs : ℕ
  cs : ℕ
  deriving Repr, DecidableEq

def placements33 : List Placement33 :=
  ((List.range 8).map (fun c => ⟨cid33 "top" 0 c, 0, c, 1, 1⟩))
  ++ ((List.range 8).flatMap (fun i =>
        [(⟨cid33 "left" (i+1) 0, 1+i, 0, 1, 1⟩ : Placement33)]
        ++ (if i = 0 then [(⟨cid33 "center" 0 0, 1, 1, 8, 6⟩ : Placement33)] else [])
        ++ [(⟨cid33 "right" (i+1) 7, 1+i, 7, 1, 1⟩ : Placement33)]))
  ++ ((List.range 8).map (fun c => ⟨cid33 "bottom" 9 c, 9, c, 1, 1⟩))

structure DrawCmd where
  src : String
  rect : DRect
  deriving Repr, DecidableEq

def renderGrid33 (s : CellState) : List DrawCmd :=
  placements33.filterMap (fun p =>
    (s.images p.key).map (fun src =>
      { src := src, rect := destRect 8 10 100 1 p.r p.c p.rs p.cs }))

/-- Claim C4: the exported raster of template 33 is a function of the
images map alone.  Two stores whose images agree — however their stored
pan offsets differ — produce the identical draw-command list, so the
export never consults the Cell Store offset and always applies the
centered cover crop computed from the image and rectangle only. -/
theorem claim_C4 (s1 s2 : CellState) (h : s1.images = s2.images) :
    renderGrid33 s1 = renderGrid33 s2 := by
  unfold renderGrid33
  rw [h]

/-- Witness for C4: the same single upload followed by two different drags
(offsets (10, 20) versus (90, 80)) renders to the same command list. -/
theorem claim_C4_witness :
    renderGrid33 (setOffset (handleImageUpload initialState (cid33 "top" 0 0) true "img")
        (cid33 "top" 0 0) 10 20)
      = renderGrid33 (setOffset (handleImageUpload initialState (cid33 "top" 0 0) true "img")
        (cid33 "top" 0 0) 90 80) := by
  apply claim_C4
  rw [setOffset_images, setOffset_images]

/-! ### Face-centering auto-cropper

Shallow embedding of centerCropFace (src/unnamed/part_000).  The external
capabilities — memoized model loading, image decoding, the face detector,
and 2d-context availability — are inputs in a FaceEnv.  The final render
is returned as a canvas description (size plus ordered canvas operations)
rather than encoded bytes. -/

structure FBox where
  x : ℚ
  y : ℚ
  width : ℚ
  height : ℚ
  deriving Repr, DecidableEq

structure Detection where
  box : FBox
  deriving Repr, DecidableEq

/-- Bounding-box area, the sort key of the selection comparator
(part_000 line 77). -/
def area (d : Detection) : ℚ := d.box.width * d.box.height

/-- Stable insertion into a list already sorted by descending area: the
inserted element, which precedes the list elements in the original order,
goes in front of every element of no larger area. -/
def insertByAreaDesc (d : Detection) : List Detection → List Detection
  | [] => [d]
  | e :: es => if area e ≤ area d then d :: e :: es else e :: insertByAreaDesc d es

/-- Stable descending sort by area, modelling the ECMAScript stable
Array.prototype.sort with comparator (a, b) => bArea - aArea used at
part_000 line 77. -/
def sortByAreaDesc (l : List Detection) : List Detection :=
  l.foldr insertByAreaDesc []

/-- The detection the code crops to: element 0 of the sorted array; none
exactly when the detections array is empty (the zero-detections check). -/
def selectBest (l : List Detection) : Option Detection :=
  (sortByAreaDesc l).head?

theorem insertByAreaDesc_ne_nil (d : Detection) (l : List Detection) :
    insertByAreaDesc d l ≠ [] := by
  cases l with
  | nil => simp [insertByAreaDesc]
  | cons e es =>
    simp only [insertByAreaDesc]
    split_ifs <;> simp

theorem sortByAreaDesc_eq_nil (l : List Detection) (h : sortByAreaDesc l = []) :
    l = [] := by
  cases l with
  | nil => rfl
  | cons x xs =>
    exfalso
    unfold sortByAreaDesc at h
    rw [List.foldr_cons] at h
    exact insertByAreaDesc_ne_nil x _ h

theorem selectBest_spec :
    ∀ (l : List Detection) (d : Detection), selectBest l = some d →
      d ∈ l ∧ (∀ e ∈ l, area e ≤ area d) ∧
      ∃ l1 l2, l = l1 ++ d :: l2 ∧ ∀ e ∈ l1, area e < area d := by
  intro l
  induction l with
  | nil => intro d h; simp [selectBest, sortByAreaDesc] at h
  | cons x xs ih =>
    intro d h
    have hsx : sortByAreaDesc (x :: xs) = insertByAreaDesc x (sortByAreaDesc xs) := by
      unfold sortByAreaDesc
      rw [List.foldr_cons]
    rcases hxs : sortByAreaDesc xs with _ | ⟨m, rest⟩
    · have hnil : xs = [] := sortByAreaDesc_eq_nil xs hxs
      subst hnil
      unfold selectBest at h
      rw [hsx, hxs] at h
      simp only [insertByAreaDesc, List.head?_cons, Option.some.injEq] at h
      subst h
      refine ⟨List.mem_singleton_self x, ?_, [], [], rfl, ?_⟩
      · intro e he
        rcases List.mem_singleton.mp he with rfl
        exact le_refl _
      · intro e he
        simp at he
    · have hm : selectBest xs = some m := by
        unfold selectBest
        rw [hxs]
        rfl
      obtain ⟨hmem, hall, l1, l2, hsplit, hl1⟩ := ih m hm
      unfold selectBest at h
      rw [hsx, hxs] at h
      simp only [insertByAreaDesc] at h
      by_cases hcmp : area m ≤ area x
      · rw [if_pos hcmp] at h
        simp only [List.head?_cons, Option.some.injEq] at h
        subst h
        refine ⟨List.mem_cons_self x xs, ?_, [], xs, rfl, ?_⟩
        · intro e he
          rcases List.mem_cons.mp he with rfl | he2
          · exact le_refl _
          · exact le_trans (hall e he2) hcmp
        · intro e he
          simp at he
      · rw [if_neg hcmp] at h
        simp only [List.head?_cons, Option.some.injEq] at h
        subst h
        refine ⟨List.mem_cons_of_mem x hmem, ?_, x :: l1, l2, by rw [hsplit]; rfl, ?_⟩
        · intro e he
          rcases List.mem_cons.mp he with rfl | he2
          · exact le_of_lt (not_le.mp hcmp)
          · exact hall e he2
        · intro e he
          rcases List.mem_cons.mp he with rfl | he2
          · exact not_le.mp hcmp
          · exact hl1 e he2

/-- Claim C8: selection always succeeds on a nonempty detections array,
and the selected detection has maximal bounding-box area while every
detection strictly earlier in detector output order has strictly smaller
area — so equal-area ties deterministically go to the first-encountered
detection (ECMAScript sort stability). -/
theorem claim_C8 :
    (∀ (l : List Detection), l ≠ [] → ∃ d, selectBest l = some d) ∧
    (∀ (l : List Detection) (d : Detection), selectBest l = some d →
      d ∈ l ∧ (∀ e ∈ l, area e ≤ area d) ∧
      ∃ l1 l2, l = l1 ++ d :: l2 ∧ ∀ e ∈ l1, area e < area d) := by
  constructor
  · intro l hl
    cases l with
    | nil => exact absurd rfl hl
    | cons x xs =>
      have hne := insertByAreaDesc_ne_nil x (sortByAreaDesc xs)
      unfold selectBest sortByAreaDesc
      rw [List.foldr_cons]
      rcases hins : insertByAreaDesc x (List.foldr insertByAreaDesc [] xs) with _ | ⟨a, rest⟩
      · exact absurd hins hne
      · exact ⟨a, rfl⟩
  · exact selectBest_spec

/-- Witness for C8 on two detections of equal area 4 (a 2 by 2 box and a
4 by 1 box): the first in detector output order is selected. -/
theorem claim_C8_witness :
    selectBest [(⟨⟨0, 0, 2, 2⟩⟩ : Detection), ⟨⟨5, 5, 4, 1⟩⟩] = some ⟨⟨0, 0, 2, 2⟩⟩ ∧
    (⟨⟨0, 0, 2, 2⟩⟩ : Detection) ∈ [(⟨⟨0, 0, 2, 2⟩⟩ : Detection), ⟨⟨5, 5, 4, 1⟩⟩] := by
  have h : selectBest [(⟨⟨0, 0, 2, 2⟩⟩ : Detection), ⟨⟨5, 5, 4, 1⟩⟩]
      = some ⟨⟨0, 0, 2, 2⟩⟩ := by
    unfold selectBest sortByAreaDesc
    rw [List.foldr_cons, List.foldr_cons, List.foldr_nil]
    simp only [insertByAreaDesc]
    rw [if_pos (by norm_num [area] :
      area (⟨⟨5, 5, 4, 1⟩⟩ : Detection) ≤ area (⟨⟨0, 0, 2, 2⟩⟩ : Detection))]
    rfl
  exact ⟨h, (claim_C8.2 _ _ h).1⟩

/-- Result of the pre-scale-for-detection step: detection-copy dimensions
and the recorded scale factor. -/
structure Scaled where
  tw : ℤ
  th : ℤ
  sf : ℚ
  deriving Repr, DecidableEq

/-- Shallow embedding of the detection prescale (part_000 lines 39-57):
when either dimension exceeds 640, the detection copy is
min(w, 640) by round(640/aspect) for aspect at least 1 and
round(640*aspect) by min(h, 640) otherwise, and
scaleFactor = targetWidth / originalWidth; otherwise the original
dimensions are kept with scaleFactor 1. -/
def prescale (w h : ℕ) : Scaled :=
  if 640 < w ∨ 640 < h then
    { tw := if 1 ≤ (w : ℚ) / (h : ℚ) then ((min w 640 : ℕ) : ℤ)
            else jsRound (640 * ((w : ℚ) / (h : ℚ)))
      th := if 1 ≤ (w : ℚ) / (h : ℚ) then jsRound (640 / ((w : ℚ) / (h : ℚ)))
            else ((min h 640 : ℕ) : ℤ)
      sf := ((if 1 ≤ (w : ℚ) / (h : ℚ) then ((min w 640 : ℕ) : ℤ)
              else jsRound (640 * ((w : ℚ) / (h : ℚ)))) : ℚ) / (w : ℚ) }
  else
    { tw := (w : ℤ), th := (h : ℤ), sf := 1 }

/-- Mapping of the selected detection box back to original-image
coordinates (part_000 lines 79-85): every component is multiplied by
inv = 1 / scaleFactor. -/
def rescaleBox (sf : ℚ) (b : FBox) : FBox :=
  let inv := 1 / sf
  { x := b.x * inv, y := b.y * inv, width := b.width * inv, height := b.height * inv }

/-- Claim C9: for an image with either dimension above 640, the detection
copy has its larger dimension exactly 640, the recorded scale factor is
targetWidth / originalWidth, and the selected box is mapped back by
multiplying each component by 1/scaleFactor; in particular a 2000 by 1000
image gives a 640 by 320 detection copy with scale factor 8/25 = 0.32, and
the detected box (100, 100, 50, 50) rescales to
(312.5, 312.5, 156.25, 156.25). -/
theorem claim_C9 (w h : ℕ) (hw : 1 ≤ w) (hh : 1 ≤ h)
    (hbig : 640 < w ∨ 640 < h) :
    max (prescale w h).tw (prescale w h).th = 640 ∧
    (prescale w h).sf = (((prescale w h).tw : ℤ) : ℚ) / (w : ℚ) ∧
    prescale 2000 1000 = ⟨640, 320, 8/25⟩ ∧
    rescaleBox (8/25) ⟨100, 100, 50, 50⟩ = ⟨625/2, 625/2, 625/4, 625/4⟩ := by
  have hq : (0 : ℚ) < (h : ℚ) := by exact_mod_cast hh
  have hc1 : prescale 2000 1000 = ⟨640, 320, 8/25⟩ := by
    unfold prescale
    rw [if_pos (by norm_num : (640 : ℕ) < 2000 ∨ (640 : ℕ) < 1000)]
    have ha : (1 : ℚ) ≤ ((2000 : ℕ) : ℚ) / ((1000 : ℕ) : ℚ) := by norm_num
    simp only [if_pos ha]
    have hj : jsRound ((640 : ℚ) / (((2000 : ℕ) : ℚ) / ((1000 : ℕ) : ℚ))) = 320 := by
      apply jsRound_eq_of_bounds <;> norm_num
    rw [hj, min_eq_right (by norm_num : (640 : ℕ) ≤ 2000)]
    norm_num [Scaled.mk.injEq]
  have hc2 : rescaleBox (8/25) ⟨100, 100, 50, 50⟩ = ⟨625/2, 625/2, 625/4, 625/4⟩ := by
    unfold rescaleBox
    norm_num [FBox.mk.injEq]
  refine ⟨?_, ?_, hc1, hc2⟩
  · by_cases hcmp : (1 : ℚ) ≤ (w : ℚ) / (h : ℚ)
    · have hle : (h : ℚ) ≤ (w : ℚ) := by
        have := (le_div_iff₀ hq).mp hcmp
        linarith
      have hwn : h ≤ w := by exact_mod_cast hle
      have h640 : 640 < w := by omega
      have htw : (prescale w h).tw = 640 := by
        unfold prescale
        rw [if_pos hbig]
        simp only [if_pos hcmp]
        rw [min_eq_right (le_of_lt h640)]
        norm_num
      have hth : (prescale w h).th = jsRound (640 / ((w : ℚ) / (h : ℚ))) := by
        unfold prescale
        rw [if_pos hbig]
        simp only [if_pos hcmp]
      rw [htw, hth]
      apply max_eq_left
      apply jsRound_le_of_le_int
      have : (640 : ℚ) / ((w : ℚ) / (h : ℚ)) ≤ 640 := div_le_self (by norm_num) hcmp
      push_cast
      linarith
    · have hlt : (w : ℚ) / (h : ℚ) < 1 := not_le.mp hcmp
      have hwlt : (w : ℚ) < (h : ℚ) := by
        have := (div_lt_one hq).mp hlt
        linarith
      have hwn : w < h := by exact_mod_cast hwlt
      have h640 : 640 < h := by omega
      have htw : (prescale w h).tw = jsRound (640 * ((w : ℚ) / (h : ℚ))) := by
        unfold prescale
        rw [if_pos hbig]
        simp only [if_neg hcmp]
      have hth : (prescale w h).th = 640 := by
        unfold prescale
        rw [if_pos hbig]
        simp only [if_neg hcmp]
        rw [min_eq_right (le_of_lt h640)]
        norm_num
      rw [htw, hth]
      apply max_eq_right
      apply jsRound_le_of_le_int
      have hnn : (0 : ℚ) ≤ (w : ℚ) / (h : ℚ) := by positivity
      have : (640 : ℚ) * ((w : ℚ) / (h : ℚ)) ≤ 640 :=
        mul_le_of_le_one_right (by norm_num) (le_of_lt hlt)
      push_cast
      linarith
  · unfold prescale
    rw [if_pos hbig]
    split_ifs <;> rfl

/-- Witness for C9 at the spec example 2000 by 1000: the detection copy is
640 by 320 with scale factor 8/25, and the example box rescale holds. -/
theorem claim_C9_witness :
    max (prescale 2000 1000).tw (prescale 2000 1000).th = 640 ∧
    prescale 2000 1000 = ⟨640, 320, 8/25⟩ ∧
    rescaleBox (8/25) ⟨100, 100, 50, 50⟩ = ⟨625/2, 625/2, 625/4, 625/4⟩ := by
  have h := claim_C9 2000 1000 (by norm_num) (by norm_num) (by norm_num)
  exact ⟨h.1, h.2.2.1, h.2.2.2⟩

/-! ### Canvas semantics and the full auto-crop pipeline -/

inductive Pixel where
  | transparent
  | fromImage (src : String)
  deriving Repr, DecidableEq

inductive CanvasOp where
  | fillRect (x y w h : ℚ) (p : Pixel)
  | drawImage (src : String) (dx dy dw dh : ℚ)
  deriving Repr, DecidableEq

def applyCanvasOp (f : ℚ → ℚ → Pixel) : CanvasOp → ℚ → ℚ → Pixel
  | .fillRect x y w h p => fun px py =>
      if x ≤ px ∧ px < x + w ∧ y ≤ py ∧ py < y + h then p else f px py
  | .drawImage src dx dy dw dh => fun px py =>
      if dx ≤ px ∧ px < dx + dw ∧ dy ≤ py ∧ py < dy + dh then Pixel.fromImage src
      else f px py

/-- Pixel contents of a canvas after a list of operations: a freshly
created HTML canvas is fully transparent, and operations paint in order. -/
def runOps (ops : List CanvasOp) : ℚ → ℚ → Pixel :=
  ops.foldl applyCanvasOp (fun _ _ => Pixel.transparent)

/-- Description of the output canvas built on the success path. -/
structure RenderSpec where
  canvasW : ℚ
  canvasH : ℚ
  ops : List CanvasOp
  deriving Repr, DecidableEq

inductive CropErr where
  | decodeError
  | canvasError
  deriving Repr, DecidableEq

inductive CropOut where
  | fallback (src : String)
  | success (spec : RenderSpec)
  deriving Repr, DecidableEq

structure Dims where
  w : ℕ
  h : ℕ
  deriving Repr, DecidableEq

/-- External capabilities of the auto-cropper: whether the memoized model
load succeeds, whether a 2d context is available, the image decoder, and
the face detector (called with the detection-source dimensions). -/
structure FaceEnv where
  modelOk : Bool
  ctxOk : Bool
  decode : String → Option Dims
  detect : String → ℤ → ℤ → Except Unit (List Detection)

/-- Shallow embedding of centerCropFace (src/unnamed/part_000 lines
25-116).  Model-load failure, detector error, and zero detections return
the original file (the code hands back an object URL of imgFile);
a decode failure propagates; an unavailable 2d context throws, in the
prescale branch only when downscaling is needed.  On success the output
is the container-sized canvas receiving the single drawImage of the full
original image scaled and offset to center the selected face. -/
def centerCropFace (env : FaceEnv) (imgFile : String)
    (containerWidth containerHeight : ℚ) : Except CropErr CropOut :=
  if env.modelOk = false then Except.ok (CropOut.fallback imgFile)
  else
    match env.decode imgFile with
    | none => Except.error CropErr.decodeError
    | some img =>
      if (640 < img.w ∨ 640 < img.h) ∧ env.ctxOk = false then
        Except.error CropErr.canvasError
      else
        match env.detect imgFile (prescale img.w img.h).tw (prescale img.w img.h).th with
        | Except.error _ => Except.ok (CropOut.fallback imgFile)
        | Except.ok detections =>
          match selectBest detections with
          | none => Except.ok (CropOut.fallback imgFile)
          | some bestDetection =>
            if env.ctxOk = false then Except.error CropErr.canvasError
            else
              let box := rescaleBox (prescale img.w img.h).sf bestDetection.box
              let targetFill : ℚ := 1/2
              let scale := min (containerWidth * targetFill / box.width)
                               (containerHeight * targetFill / box.height)
              let faceCenterX := box.x + box.width / 2
              let faceCenterY := box.y + box.height / 2
              let offsetX := containerWidth / 2 - faceCenterX * scale
              let offsetY := containerHeight / 2 - faceCenterY * scale
              Except.ok (CropOut.success
                { canvasW := containerWidth
                  canvasH := containerHeight
                  ops := [CanvasOp.drawImage imgFile offsetX offsetY
                            ((img.w : ℚ) * scale) ((img.h : ℚ) * scale)] })

/-- Claim C7: when the face-detection model fails to load, or the detector
throws, or the detector returns zero detections, centerCropFace returns
the original input unmodified and does not itself throw. -/
theorem claim_C7 (env : FaceEnv) (imgFile : String) (cw ch : ℚ)
    (h : env.modelOk = false
      ∨ ∃ img, env.decode imgFile = some img
          ∧ ((640 < img.w ∨ 640 < img.h) → env.ctxOk = true)
          ∧ (env.detect imgFile (prescale img.w img.h).tw (prescale img.w img.h).th
               = Except.error ()
             ∨ env.detect imgFile (prescale img.w img.h).tw (prescale img.w img.h).th
               = Except.ok [])) :
    centerCropFace env imgFile cw ch = Except.ok (CropOut.fallback imgFile) := by
  unfold centerCropFace
  rcases h with h | ⟨img, hdec, hctx, hdet⟩
  · rw [if_pos h]
  · by_cases hm : env.modelOk = false
    · rw [if_pos hm]
    · have hcond : ¬((640 < img.w ∨ 640 < img.h) ∧ env.ctxOk = false) := by
        rintro ⟨hb, hc⟩
        rw [hctx hb] at hc
        exact Bool.noConfusion hc
      rw [if_neg hm]
      split
      · next heq =>
        rw [hdec] at heq
        exact absurd heq (by simp)
      · next img2 heq =>
        rw [hdec] at heq
        have himg : img = img2 := Option.some.inj heq
        subst himg
        rw [if_neg hcond]
        split

        · rfl
        · next dets heq2 =>
          rcases hdet with hd | hd
          · rw [hd] at heq2
            exact absurd heq2 (by simp)
          · rw [hd] at heq2
            have hnil : ([] : List Detection) = dets := Except.ok.inj heq2
            rw [← hnil]
            rfl

/-- Witness for C7: a concrete environment whose detector always throws
returns the original file. -/
theorem claim_C7_witness :
    centerCropFace
        ⟨true, true, fun _ => some ⟨10, 10⟩, fun _ _ _ => Except.error ()⟩
        "photo" 100 100
      = Except.ok (CropOut.fallback "photo") :=
  claim_C7 _ "photo" 100 100
    (Or.inr ⟨⟨10, 10⟩, rfl, fun hb => by
      rcases hb with hb | hb <;> exact absurd hb (by norm_num), Or.inl rfl⟩)

/-- Claim C10: on the success path the output canvas is exactly the
container size, the operation list is the single drawImage of the input
image with no preceding background fill, and every canvas point outside
the drawn extent of the scaled-and-translated image is fully transparent
(not white). -/
theorem claim_C10 (env : FaceEnv) (imgFile : String) (cw ch : ℚ)
    (spec : RenderSpec) (px py : ℚ)
    (hsucc : centerCropFace env imgFile cw ch = Except.ok (CropOut.success spec)) :
    spec.canvasW = cw ∧ spec.canvasH = ch ∧
    ∃ x0 y0 w0 h0,
      spec.ops = [CanvasOp.drawImage imgFile x0 y0 w0 h0] ∧
      (¬(x0 ≤ px ∧ px < x0 + w0 ∧ y0 ≤ py ∧ py < y0 + h0) →
        runOps spec.ops px py = Pixel.transparent) := by
  unfold centerCropFace at hsucc
  split at hsucc
  · simp at hsucc
  · split at hsucc
    · simp at hsucc
    · split at hsucc
      · simp at hsucc
      · split at hsucc
        · simp at hsucc
        · split at hsucc
          · simp at hsucc
          · split at hsucc
            · simp at hsucc
            · simp only [Except.ok.injEq, CropOut.success.injEq] at hsucc
              subst hsucc
              refine ⟨rfl, rfl, _, _, _, _, rfl, ?_⟩
              intro hout
              unfold runOps
              rw [List.foldl_cons, List.foldl_nil]
              simp only [applyCanvasOp]
              rw [if_neg hout]

/-- Witness for C10: a concrete success run (100 by 100 image, face box
(0,0,10,10), container 100 by 100) draws at (25, 25, 500, 500), and the
canvas point (0, 0), which lies outside that extent, is transparent. -/
theorem claim_C10_witness :
    (⟨100, 100, [CanvasOp.drawImage "photo2" 25 25 500 500]⟩ : RenderSpec).canvasW = 100 ∧
    (⟨100, 100, [CanvasOp.drawImage "photo2" 25 25 500 500]⟩ : RenderSpec).canvasH = 100 ∧
    ∃ x0 y0 w0 h0,
      (⟨100, 100, [CanvasOp.drawImage "photo2" 25 25 500 500]⟩ : RenderSpec).ops
        = [CanvasOp.drawImage "photo2" x0 y0 w0 h0] ∧
      (¬(x0 ≤ (0 : ℚ) ∧ (0 : ℚ) < x0 + w0 ∧ y0 ≤ (0 : ℚ) ∧ (0 : ℚ) < y0 + h0) →
        runOps (⟨100, 100, [CanvasOp.drawImage "photo2" 25 25 500 500]⟩ : RenderSpec).ops
          0 0 = Pixel.transparent) := by
  apply claim_C10 ⟨true, true, fun _ => some ⟨100, 100⟩,
    fun _ _ _ => Except.ok [⟨⟨0, 0, 10, 10⟩⟩]⟩ "photo2" 100 100
  show Except.ok (CropOut.success _) = _
  norm_num [centerCropFace, prescale, selectBest, sortByAreaDesc, insertByAreaDesc,
    rescaleBox]

end Hexagon
